import Mathlib

set_option maxRecDepth 16384

/-!
Shallow embedding of the Qobuz client patch of streamrip-web-gui
(src/patches/streamrip/qobuz.py): the secret-discovery pipeline of
QobuzSpoofer.get_app_id_and_secrets and the signing, resolving and
quality-probing methods of QobuzClient.  Network fetches and regex
scans are abstracted by passing their results (match strings, response
streams) as explicit inputs; everything downstream of those inputs is
translated statement by statement from the Python source.
-/

namespace Qobuz

/-! ## Python value model

A small model of the Python values that appear in API responses and
request parameters: strings, integers, floats (kept as their decimal
rendering, since they are only ever formatted into strings here) and
None.  A JSON response body is an association list in key order. -/

inductive PyVal where
  | str (s : String)
  | int (n : Int)
  | flt (render : String)
  | null
  deriving DecidableEq, Repr

/-- A decoded JSON object (Python dict) in key-insertion order. -/
abbrev Resp := List (String × PyVal)

/-- Python d.get(k): the value at key k, or None when absent. -/
def dictGet (d : Resp) (k : String) : PyVal :=
  match d.find? (fun e => e.1 == k) with
  | some e => e.2
  | none => .null

/-- Python k in d. -/
def hasKey (d : Resp) (k : String) : Bool :=
  (d.find? (fun e => e.1 == k)).isSome

/-- Python truthiness of a value, used by the or between fallbacks. -/
def truthy : PyVal → Bool
  | .str s => s ≠ ""
  | .int n => n ≠ 0
  | .flt r => r ≠ "0.0"
  | .null => false

/-- Python a or b on values: b when a is falsy, else a. -/
def pyOr (a b : PyVal) : PyVal := if truthy a then a else b

/-- Python repr of a value (as it appears inside str(dict)). -/
def pyReprVal : PyVal → String
  | .str s => "\x27" ++ s ++ "\x27"
  | .int n => toString n
  | .flt r => r
  | .null => "None"

/-- Python str(d) for a dict: entries in order, key: value. -/
def pyStrDict (d : Resp) : String :=
  "\x7b" ++ String.intercalate ", "
    (d.map (fun e => pyReprVal (.str e.1) ++ ": " ++ pyReprVal e.2)) ++ "\x7d"

/-- Python substring test: needle in hay. -/
def pyContains (hay needle : String) : Bool :=
  decide (needle.toList <:+: hay.toList)

/-! ## Python exceptions

The exceptions the embedded code can raise, plus the NonStreamableError
imported from the package and, for comparison with the specification
taxonomy, a DiscoveryError constructor that no code path produces. -/

inductive PyErr where
  | assertionError
  | indexError
  | keyError (k : String)
  | exception (msg : String)
  | binasciiError (msg : String)
  | unicodeDecodeError
  | nonStreamableError
  | discoveryError
  deriving DecidableEq, Repr

/-! ## base64.standard_b64decode

Model of CPython binascii.a2b_base64 in non-strict mode, the code
reached by base64.standard_b64decode: characters outside the alphabet
are discarded; a pad character ends decoding once the current group
holds at least two data characters and data plus pads reach four; a
group left incomplete at end of input is an error (a special message
when exactly one data character remains modulo four). -/

/-- Value of a standard-alphabet base64 character, none otherwise. -/
def b64Val (c : Char) : Option Nat :=
  if 'A' ≤ c ∧ c ≤ 'Z' then some (c.toNat - 65)
  else if 'a' ≤ c ∧ c ≤ 'z' then some (c.toNat - 97 + 26)
  else if '0' ≤ c ∧ c ≤ '9' then some (c.toNat - 48 + 52)
  else if c = '+' then some 62
  else if c = '/' then some 63
  else none

/-- The bytes encoded by a group of two, three or four sextets. -/
def quadBytes : List Nat → List Nat
  | [a, b] => [a * 4 + b / 16]
  | [a, b, c] => [a * 4 + b / 16, b % 16 * 16 + c / 4]
  | [a, b, c, d] => [a * 4 + b / 16, b % 16 * 16 + c / 4, c % 4 * 64 + d]
  | _ => []

/-- Main loop of a2b_base64: current group, pad count, output bytes. -/
def a2bLoop : List Char → List Nat → Nat → List Nat → Except PyErr (List Nat)
  | [], quad, _, out =>
    if quad.length = 0 then .ok out
    else if quad.length = 1 then
      .error (.binasciiError
        "Invalid base64-encoded string: number of data characters cannot be 1 more than a multiple of 4")
    else .error (.binasciiError "Incorrect padding")
  | c :: rest, quad, pads, out =>
    match b64Val c with
    | some v =>
      if quad.length = 3 then a2bLoop rest [] pads (out ++ quadBytes (quad ++ [v]))
      else a2bLoop rest (quad ++ [v]) pads out
    | none =>
      if c = '=' then
        if 2 ≤ quad.length ∧ 4 ≤ quad.length + (pads + 1) then .ok (out ++ quadBytes quad)
        else a2bLoop rest quad (pads + 1) out
      else a2bLoop rest quad pads out

/-- Python base64.standard_b64decode on a str, yielding bytes. -/
def standard_b64decode (s : String) : Except PyErr (List Nat) :=
  a2bLoop s.toList [] 0 []

/-! ## bytes.decode with the utf-8 codec (strict) -/

/-- Is b a UTF-8 continuation byte. -/
def isCont (b : Nat) : Bool := 128 ≤ b ∧ b ≤ 191

/-- Strict UTF-8 decoding of a byte list, rejecting overlong forms,
surrogates and out-of-range code points as CPython does. -/
def utf8DecodeBytes : List Nat → Except PyErr (List Char)
  | [] => .ok []
  | b :: rest =>
    if b ≤ 127 then
      (utf8DecodeBytes rest).map (fun cs => Char.ofNat b :: cs)
    else if 194 ≤ b ∧ b ≤ 223 then
      match rest with
      | b1 :: rest1 =>
        if isCont b1 then
          (utf8DecodeBytes rest1).map
            (fun cs => Char.ofNat ((b - 192) * 64 + (b1 - 128)) :: cs)
        else .error .unicodeDecodeError
      | [] => .error .unicodeDecodeError
    else if 224 ≤ b ∧ b ≤ 239 then
      match rest with
      | b1 :: b2 :: rest2 =>
        let v := (b - 224) * 4096 + (b1 - 128) * 64 + (b2 - 128)
        if isCont b1 ∧ isCont b2 ∧ 2048 ≤ v ∧ ¬(55296 ≤ v ∧ v ≤ 57343) then
          (utf8DecodeBytes rest2).map (fun cs => Char.ofNat v :: cs)
        else .error .unicodeDecodeError
      | _ => .error .unicodeDecodeError
    else if 240 ≤ b ∧ b ≤ 244 then
      match rest with
      | b1 :: b2 :: b3 :: rest3 =>
        let v := (b - 240) * 262144 + (b1 - 128) * 4096 + (b2 - 128) * 64 + (b3 - 128)
        if isCont b1 ∧ isCont b2 ∧ isCont b3 ∧ 65536 ≤ v ∧ v ≤ 1114111 then
          (utf8DecodeBytes rest3).map (fun cs => Char.ofNat v :: cs)
        else .error .unicodeDecodeError
      | _ => .error .unicodeDecodeError
    else .error .unicodeDecodeError

/-- Python bytes.decode applied with the utf-8 codec. -/
def utf8Decode (bs : List Nat) : Except PyErr String :=
  (utf8DecodeBytes bs).map (fun cs => String.mk cs)

/-! ## QobuzSpoofer.get_app_id_and_secrets

The discovery pipeline, translated from qobuz.py lines 66 to 113.  The
two page fetches and the three regex scans are replaced by explicit
inputs: the optional bundle-url match, the optional app-id match, the
ordered (timezone, seed) pairs produced by the seed regex, and the
ordered (timezone, info, extras) triples produced by the info-extras
regex with the timezone group already lowercased. -/

/-- Python d[k] = v on an (ordered) dict: reassignment keeps the
original position of an existing key, a new key goes to the end. -/
def dictInsert (m : List (String × α)) (k : String) (v : α) :
    List (String × α) :=
  if m.any (fun e => e.1 == k) then
    m.map (fun e => if e.1 == k then (e.1, v) else e)
  else m ++ [(k, v)]

/-- The loop secrets[timezone] = [seed] over the seed matches. -/
def buildSeedMap (seed_matches : List (String × String)) :
    List (String × List String) :=
  seed_matches.foldl (fun m p => dictInsert m p.1 [p.2]) []

/-- OrderedDict.move_to_end(k, last=False): the entry of key k moves
to the front; a missing key is a KeyError (none). -/
def move_to_front (m : List (String × α)) (k : String) :
    Option (List (String × α)) :=
  match m.find? (fun e => e.1 == k) with
  | some e => some (e :: m.filter (fun x => !(x.1 == k)))
  | none => none

/-- keypairs = list(secrets.items()); secrets.move_to_end(keypairs[1][0],
last=False).  Indexing keypairs[1] on fewer than two entries is an
IndexError (none). -/
def reorderSecrets (m : List (String × α)) : Option (List (String × α)) :=
  match m.get? 1 with
  | some kv => move_to_front m kv.1
  | none => none

/-- secrets[timezone.lower()] += [info, extras] for one match of the
info-extras regex; a timezone absent from the dict is a KeyError. -/
def addInfoExtras (m : List (String × List String))
    (t : String × String × String) : Option (List (String × List String)) :=
  if m.any (fun e => e.1 == t.1) then
    some (m.map (fun e => if e.1 == t.1 then (e.1, e.2 ++ [t.2.1, t.2.2]) else e))
  else none

/-- The decode of one entry: join the collected parts, drop the last 44
characters, base64-decode, decode the bytes as utf-8 text. -/
def decodeSecretEntry (parts : List String) : Except PyErr String :=
  (standard_b64decode ((String.join parts).dropRight 44)).bind utf8Decode

/-- Sequencing of one decoded entry in front of the decoded rest: the
first exception encountered propagates, exactly as the Python loop
raises out of the whole function. -/
def consSecret (k : String) (s : Except PyErr String)
    (rest : Except PyErr (List (String × String))) :
    Except PyErr (List (String × String)) :=
  match s with
  | .error err => .error err
  | .ok v =>
    match rest with
    | .error err => .error err
    | .ok d => .ok ((k, v) :: d)

/-- The loop over the dict replacing every value by its decoded secret,
entry by entry in dict order; the first failing entry aborts the whole
loop with its exception, no try-except surrounds it. -/
def decodeAllSecrets : List (String × List String) →
    Except PyErr (List (String × String))
  | [] => .ok []
  | e :: rest => consSecret e.1 (decodeSecretEntry e.2) (decodeAllSecrets rest)

/-- vals = list(secrets.values()); if the empty string is present,
vals.remove removes exactly its first occurrence. -/
def removeFirstEmpty (vals : List String) : List String :=
  if "" ∈ vals then vals.erase "" else vals

/-- QobuzSpoofer.get_app_id_and_secrets from the regex results onward:
the assert on the bundle-url match, the explicit raise when the app-id
pattern is absent, the seed collection, the index-1-to-front reorder,
the info-extras appending, the per-entry decode and the removal of one
empty secret. -/
def get_app_id_and_secrets (bundle_url_match : Option String)
    (app_id_match : Option String) (seed_matches : List (String × String))
    (info_extras_matches : List (String × String × String)) :
    Except PyErr (String × List String) :=
  match bundle_url_match with
  | none => .error .assertionError
  | some _ =>
    match app_id_match with
    | none => .error (.exception "Could not find app id.")
    | some app_id =>
      match reorderSecrets (buildSeedMap seed_matches) with
      | none => .error .indexError
      | some m1 =>
        match info_extras_matches.foldlM addInfoExtras m1 with
        | none => .error (.keyError "timezone")
        | some m2 =>
          match decodeAllSecrets m2 with
          | .error e => .error e
          | .ok d => .ok (app_id, removeFirstEmpty (d.map (fun e => e.2)))

/-! ## QobuzClient

Quality mapping, request signing, get_downloadable and the probe loop
of inspect_track_quality.  The network is abstracted as the ordered
list of (status, body) responses the server would return, consumed one
per issued request; md5 is abstracted as an arbitrary digest function
of the signed string, since the digest bytes themselves never influence
control flow. -/

/-- Python tuple indexing t[i]: negative indices count from the end,
anything outside -len..len-1 is an IndexError (none). -/
def pyTupleGet (t : List Int) (i : Int) : Option Int :=
  if 0 ≤ i then t.get? i.toNat
  else if 0 ≤ i + t.length then t.get? (i + t.length).toNat
  else none

/-- QobuzClient.get_quality: the tuple lookup (5, 6, 7, 27)[quality - 1]. -/
def get_quality (quality : Int) : Option Int :=
  pyTupleGet [5, 6, 7, 27] (quality - 1)

/-- The exact f-string that is hashed in _request_file_url, given the
already-mapped format id, the rendered timestamp and the secret. -/
def sigString (format_id : Int) (track_id ts secret : String) : String :=
  "trackgetFileUrlformat_id" ++ toString format_id ++
    "intentstreamtrack_id" ++ track_id ++ ts ++ secret

/-- The params dict that _request_file_url passes to _api_request:
the quality level is first mapped through get_quality, the signature
is the md5 hex digest of sigString.  The timestamp is time.time()
rendered the way the f-string renders it. -/
def request_file_url_params (md5Hex : String → String) (track_id : String)
    (quality : Int) (ts secret : String) : Option Resp :=
  (get_quality quality).map (fun format_id =>
    [("request_ts", .flt ts),
     ("request_sig", .str (md5Hex (sigString format_id track_id ts secret))),
     ("track_id", .str track_id),
     ("format_id", .int format_id),
     ("intent", .str "stream")])

/-- The Downloadable value get_downloadable builds: BasicDownloadable
keeps the url, the codec string and the source tag. -/
structure Downloadable where
  url : PyVal
  codec : String
  source : String
  deriving DecidableEq, Repr

/-- QobuzClient.get_downloadable given the (status, body) the file-url
request returned: a non-200 status or a missing url key raises
NonStreamableError, otherwise the Downloadable is built from the url,
with codec flac above quality level 1 and mp3 otherwise. -/
def get_downloadable (status : Int) (resp : Resp) (quality : Int) :
    Except PyErr Downloadable :=
  if status ≠ 200 ∨ hasKey resp "url" = false then .error .nonStreamableError
  else .ok { url := dictGet resp "url",
             codec := if quality > 1 then "flac" else "mp3",
             source := "qobuz" }

/-- One entry of the results list of inspect_track_quality.  Optional
fields model keys that are present only in one of the two branches. -/
structure TierResult where
  quality_level : Int
  format_id : Int
  bit_depth : Option PyVal
  sampling_rate : Option PyVal
  available : Bool
  error : Option PyVal
  deriving DecidableEq, Repr

/-- The dict appended for quality q once the (possibly retried)
response is in hand: available with bit depth and sampling rate on a
200 with a url, unavailable with message-or-error otherwise. -/
def tierResultOf (q format_id status : Int) (resp : Resp) : TierResult :=
  if status = 200 ∧ hasKey resp "url" = true then
    { quality_level := q, format_id := format_id,
      bit_depth := some (dictGet resp "bit_depth"),
      sampling_rate := some (dictGet resp "sampling_rate"),
      available := true, error := none }
  else
    { quality_level := q, format_id := format_id,
      bit_depth := none, sampling_rate := none,
      available := false,
      error := some (pyOr (dictGet resp "message") (dictGet resp "error")) }

/-- Pop the next (status, body) response from the network stream;
an exhausted stream means the model has no response to give. -/
def takeResp : List (Int × Resp) → Option ((Int × Resp) × List (Int × Resp))
  | [] => none
  | r :: rest => some (r, rest)

/-- One iteration of the probe loop: issue the request, and when the
status is 400 with Invalid Request Signature in str(resp), issue the
same request exactly once more; the entry is built from the final
(status, body) pair and the unconsumed stream is threaded on. -/
def probeTierStep (q format_id : Int) (stream : List (Int × Resp)) :
    Option (TierResult × List (Int × Resp)) :=
  (takeResp stream).bind (fun x =>
    (if x.1.1 = 400 ∧
        pyContains (pyStrDict x.1.2) "Invalid Request Signature" = true
      then takeResp x.2 else some x).map (fun y =>
        (tierResultOf q format_id y.1.1 y.1.2, y.2)))

/-- Sequencing of one probed tier in front of the remaining loop. -/
def stepCont (entryStep : Option (TierResult × List (Int × Resp)))
    (k : List (Int × Resp) → Option (List TierResult × List (Int × Resp))) :
    Option (List TierResult × List (Int × Resp)) :=
  match entryStep with
  | none => none
  | some (entry, st2) =>
    match k st2 with
    | none => none
    | some (rest, stF) => some (entry :: rest, stF)

/-- The for-loop of inspect_track_quality, for q from the clamped
maximum down to 1, threading the response stream. -/
def inspectLoop : Nat → List (Int × Resp) →
    Option (List TierResult × List (Int × Resp))
  | 0, stream => some ([], stream)
  | p + 1, stream =>
    (get_quality ((p : Int) + 1)).bind (fun format_id =>
      stepCont (probeTierStep ((p : Int) + 1) format_id stream)
        (inspectLoop p))

/-- QobuzClient.inspect_track_quality: clamp the requested maximum into
1..4, probe each tier from the clamped maximum down to 1, return the
track id with the results list. -/
def inspect_track_quality (track_id : String) (max_quality : Int)
    (stream : List (Int × Resp)) : Option (String × List TierResult) :=
  (inspectLoop (max 1 (min max_quality 4)).toNat stream).map
    (fun r => (track_id, r.1))

/-- The quality levels a probe reports: the clamped maximum down to 1. -/
def descLevels (n : Nat) : List Int :=
  (List.range n).map (fun i : Nat => (n : Int) - (i : Int))

/-! ## Claims -/

/-- C3, counterexample: the claim says every quality value outside
1..4 is rejected, but the tuple lookup accepts quality 0, where the
Python index 0 - 1 = -1 selects the last entry 27. -/
theorem c3_counterexample : get_quality 0 = some 27 := by decide

/-- C3, amended: the mapping is fixed over 1..4 as 5, 6, 7, 27;
quality values below -3 or above 4 are rejected; the values -3 to 0
wrap around through negative indexing to 5, 7, 6 and 27. -/
theorem c3_quality_map :
    (get_quality 1 = some 5 ∧ get_quality 2 = some 6 ∧
     get_quality 3 = some 7 ∧ get_quality 4 = some 27) ∧
    (get_quality 0 = some 27 ∧ get_quality (-1) = some 7 ∧
     get_quality (-2) = some 6 ∧ get_quality (-3) = some 5) ∧
    (∀ q : Int, q < -3 ∨ 4 < q → get_quality q = none) := by
  refine ⟨by decide, by decide, ?_⟩
  intro q h
  unfold get_quality pyTupleGet
  rcases h with h | h
  · have h1 : ¬(0 ≤ q - 1) := by omega
    have h2 : ¬(0 ≤ q - 1 + (([5, 6, 7, 27] : List Int).length : Int)) := by
      simp only [List.length_cons, List.length_nil]
      omega
    simp [h1, h2]
    omega
  · have h1 : 0 ≤ q - 1 := by omega
    have h2 : ([5, 6, 7, 27] : List Int).length ≤ (q - 1).toNat := by
      simp only [List.length_cons, List.length_nil]
      omega
    simp [h1, List.get?_eq_none.mpr h2]
    omega

/-- C3, witness: quality level 5 is rejected. -/
theorem c3_quality_map_witness : get_quality 5 = none :=
  c3_quality_map.2.2 5 (Or.inr (by omega))

/-- C5: get_downloadable fails exactly on a non-200 status or a missing
url key, and then always with NonStreamableError; otherwise it returns
the Downloadable built from the response url, with codec flac above
quality level 1 and mp3 otherwise, and source qobuz. -/
theorem c5_get_downloadable (status : Int) (resp : Resp) (quality : Int) :
    (∀ e, get_downloadable status resp quality = .error e →
      e = .nonStreamableError) ∧
    (get_downloadable status resp quality = .error .nonStreamableError ↔
      (status ≠ 200 ∨ hasKey resp "url" = false)) ∧
    (status = 200 → hasKey resp "url" = true →
      get_downloadable status resp quality =
        .ok { url := dictGet resp "url",
              codec := if quality > 1 then "flac" else "mp3",
              source := "qobuz" }) := by
  by_cases hc : status ≠ 200 ∨ hasKey resp "url" = false
  · refine ⟨?_, by simp [get_downloadable, hc], ?_⟩
    · intro e he
      rw [get_downloadable, if_pos hc] at he
      exact (Except.error.injEq _ _).mp he.symm
    · intro h1 h2
      exact absurd hc (by simp [h1, h2])
  · refine ⟨?_, by simp [get_downloadable, hc], ?_⟩
    · intro e he
      rw [get_downloadable, if_neg hc] at he
      exact absurd he (by simp)
    · intro _ _
      rw [get_downloadable, if_neg hc]

/-- C5, witness: a 404 with an empty body fails with
NonStreamableError, and a 200 carrying a url at quality 3 resolves to a
flac Downloadable of that url with source qobuz. -/
theorem c5_get_downloadable_witness :
    get_downloadable 404 [] 1 = .error .nonStreamableError ∧
    get_downloadable 200 [("url", .str "http")] 3 =
      .ok { url := .str "http", codec := "flac", source := "qobuz" } := by
  refine ⟨(c5_get_downloadable 404 [] 1).2.1.mpr (Or.inl (by decide)), ?_⟩
  have h := (c5_get_downloadable 200 [("url", .str "http")] 3).2.2 rfl (by decide)
  simpa using h

/-- C2: whenever the quality level maps to a format id, the request
signature is the md5 hex digest of exactly the literal concatenation
of trackgetFileUrlformat_id, the format id, intentstream, track_id,
the track id, the timestamp and the secret, and the parameters sent
are exactly request_ts, request_sig, track_id, format_id and the
intent stream. -/
theorem c2_request_signature (md5Hex : String → String) (track_id : String)
    (quality format_id : Int) (ts secret : String)
    (h : get_quality quality = some format_id) :
    request_file_url_params md5Hex track_id quality ts secret =
      some [("request_ts", .flt ts),
            ("request_sig", .str (md5Hex
              ("trackgetFileUrlformat_id" ++ toString format_id ++
               "intentstream" ++ "track_id" ++ track_id ++ ts ++ secret))),
            ("track_id", .str track_id),
            ("format_id", .int format_id),
            ("intent", .str "stream")] := by
  have key : ∀ y : String, ("intentstreamtrack_id" : String) ++ y =
      "intentstream" ++ ("track_id" ++ y) := by
    intro y
    rw [← String.append_assoc,
      show (("intentstream" : String) ++ "track_id") = "intentstreamtrack_id"
        from rfl]
  have hs : sigString format_id track_id ts secret =
      "trackgetFileUrlformat_id" ++ toString format_id ++
        "intentstream" ++ "track_id" ++ track_id ++ ts ++ secret := by
    unfold sigString
    simp only [String.append_assoc]
    rw [key]
  rw [request_file_url_params, h, Option.map_some', hs]

/-- C2, witness: the parameter list and signature input at track 42,
quality level 3 (format id 7), a fixed timestamp and secret, with the
identity function standing in for the md5 digest. -/
theorem c2_request_signature_witness :
    request_file_url_params (fun s => s) "42" 3 "1700000000.0" "s3cr3t" =
      some [("request_ts", .flt "1700000000.0"),
            ("request_sig", .str
              "trackgetFileUrlformat_id7intentstreamtrack_id421700000000.0s3cr3t"),
            ("track_id", .str "42"),
            ("format_id", .int 7),
            ("intent", .str "stream")] := by
  have h := c2_request_signature (fun s => s) "42" 3 7 "1700000000.0" "s3cr3t"
    (by decide)
  simpa using h

/-- C9, counterexample: a login page without the bundle pattern fails
the bare assert, an AssertionError, and a bundle without the app-id
pattern raises a plain Exception; neither is the discovery-specific
error of the specification taxonomy. -/
theorem c9_counterexample :
    get_app_id_and_secrets none (some "123456789") [] [] =
      .error .assertionError ∧
    get_app_id_and_secrets (some "/resources/1.2.3-b123/bundle.js") none [] [] =
      .error (.exception "Could not find app id.") ∧
    PyErr.assertionError ≠ PyErr.discoveryError ∧
    PyErr.exception "Could not find app id." ≠ PyErr.discoveryError := by
  refine ⟨rfl, rfl, by decide, by decide⟩

/-- C9, amended: a missing bundle-path match always fails with the bare
assert (AssertionError), and a missing app-id match always fails with
the generic Exception carrying the message Could not find app id. -/
theorem c9_discovery_error_kinds (app_id_match : Option String) (u : String)
    (seeds : List (String × String)) (infos : List (String × String × String)) :
    get_app_id_and_secrets none app_id_match seeds infos =
      .error .assertionError ∧
    get_app_id_and_secrets (some u) none seeds infos =
      .error (.exception "Could not find app id.") :=
  ⟨rfl, rfl⟩

/-- C9, witness: both failure shapes at concrete inputs. -/
theorem c9_discovery_error_kinds_witness :
    get_app_id_and_secrets none none [("paris", "seed")] [] =
      .error .assertionError ∧
    get_app_id_and_secrets (some "/resources/7.1.2-b011/bundle.js") none
      [("paris", "seed")] [] = .error (.exception "Could not find app id.") :=
  ⟨(c9_discovery_error_kinds none "x" [("paris", "seed")] []).1,
   (c9_discovery_error_kinds none "/resources/7.1.2-b011/bundle.js"
      [("paris", "seed")] []).2⟩

/-- C4, counterexample: the paris entry decodes cleanly (a 48-character
seed whose first 4 characters survive the 44-character strip and decode
to ABC), yet one undecodable berlin entry (45 characters, leaving a
single leftover base64 character) aborts the whole decoding step with
its exception instead of collecting the paris success. -/
theorem c4_counterexample :
    decodeSecretEntry ["QUJDAAAAAAAAAAAAAAAAAAAAAAAAAAAAAAAAAAAAAAAAAAAA"] =
      .ok "ABC" ∧
    decodeAllSecrets
      [("paris", ["QUJDAAAAAAAAAAAAAAAAAAAAAAAAAAAAAAAAAAAAAAAAAAAA"]),
       ("berlin", ["AAAAAAAAAAAAAAAAAAAAAAAAAAAAAAAAAAAAAAAAAAAAA"])] =
      .error (.binasciiError
        "Invalid base64-encoded string: number of data characters cannot be 1 more than a multiple of 4") := by
  constructor <;> rfl

/-- The nil equation of the decode loop. -/
theorem decodeAllSecrets_nil : decodeAllSecrets [] = .ok [] := rfl

/-- The cons equation of the decode loop. -/
theorem decodeAllSecrets_cons (e : String × List String)
    (rest : List (String × List String)) :
    decodeAllSecrets (e :: rest) =
      consSecret e.1 (decodeSecretEntry e.2) (decodeAllSecrets rest) := rfl

@[simp]
theorem consSecret_error (k : String) (err : PyErr)
    (r : Except PyErr (List (String × String))) :
    consSecret k (.error err) r = .error err := rfl

@[simp]
theorem consSecret_ok_error (k v : String) (err : PyErr) :
    consSecret k (.ok v) (.error err) = .error err := rfl

@[simp]
theorem consSecret_ok_ok (k v : String) (d : List (String × String)) :
    consSecret k (.ok v) (.ok d) = .ok ((k, v) :: d) := rfl

/-- C4, amended: each entry decodes by joining its parts, dropping the
last 44 characters, base64-decoding and utf-8-decoding; the loop
succeeds exactly when every entry decodes, keys and order preserved,
and any single failing entry aborts the whole step with an error
instead of collecting the remaining successes. -/
theorem c4_decode_step (m : List (String × List String))
    (l : List (String × String)) :
    (decodeAllSecrets m = .ok l ↔
      List.Forall₂ (fun (e : String × List String) (r : String × String) =>
        r.1 = e.1 ∧ decodeSecretEntry e.2 = .ok r.2) m l) ∧
    ((∃ e ∈ m, ∀ s, decodeSecretEntry e.2 ≠ .ok s) →
      ∃ err, decodeAllSecrets m = .error err) := by
  refine ⟨⟨?_, ?_⟩, ?_⟩
  · induction m generalizing l with
    | nil =>
      intro h
      rw [decodeAllSecrets_nil] at h
      cases h
      exact List.Forall₂.nil
    | cons e rest ih =>
      intro h
      rw [decodeAllSecrets_cons] at h
      rcases hse : decodeSecretEntry e.2 with err | s <;> simp [hse] at h
      rcases hrest : decodeAllSecrets rest with err | d <;> simp [hrest] at h
      subst h
      exact List.Forall₂.cons ⟨rfl, hse⟩ (ih d hrest)
  · intro h
    induction h with
    | nil => exact decodeAllSecrets_nil
    | @cons a b l1 l2 hr ht ih2 =>
      obtain ⟨hk, hdec⟩ := hr
      rw [decodeAllSecrets_cons, hdec, ih2, consSecret_ok_ok]
      rw [← hk, Prod.mk.eta]
  · induction m with
    | nil =>
      intro h
      rcases h with ⟨e, hmem, _⟩
      cases hmem
    | cons e0 rest ih =>
      intro h
      rcases h with ⟨e, hmem, hfail⟩
      rw [decodeAllSecrets_cons]
      rcases hse : decodeSecretEntry e0.2 with err | s
      · rw [consSecret_error]
        exact ⟨err, rfl⟩
      · rcases List.mem_cons.mp hmem with rfl | hm
        · exact absurd hse (hfail s)
        · rcases ih ⟨e, hm, hfail⟩ with ⟨err2, herr⟩
          rw [herr, consSecret_ok_error]
          exact ⟨err2, rfl⟩

/-- C4, witness: a one-entry map where the concatenated parts are
shorter than 44 characters strips to the empty string, which decodes
to the empty secret. -/
theorem c4_decode_step_witness :
    decodeAllSecrets [("berlin", ["shortseed"])] = .ok [("berlin", "")] :=
  (c4_decode_step [("berlin", ["shortseed"])] [("berlin", "")]).1.mpr
    (List.Forall₂.cons ⟨rfl, by rfl⟩ List.Forall₂.nil)

/-- C8, counterexample: two timezones whose seeds are at most 44
characters both decode to the empty secret, and the returned list still
contains an empty string, because list.remove discards only the first
occurrence. -/
theorem c8_counterexample :
    get_app_id_and_secrets (some "/resources/7.1.2-b011/bundle.js")
      (some "123456789") [("a", "x"), ("b", "y")] [] =
      .ok ("123456789", [""]) := by rfl

/-- C8, amended: the returned secret list is the decoded values with
exactly the first empty-string entry discarded; an empty string remains
in the output exactly when at least two entries decode to the empty
string. -/
theorem c8_one_empty_removed :
    (∀ vals : List String,
      removeFirstEmpty vals = vals.erase "" ∧
      ("" ∈ removeFirstEmpty vals ↔ 2 ≤ vals.count "")) ∧
    (∀ bum aim seeds infos app secrets_out,
      get_app_id_and_secrets bum aim seeds infos = .ok (app, secrets_out) →
      ∃ vals : List String, secrets_out = removeFirstEmpty vals) := by
  constructor
  · intro vals
    have he : removeFirstEmpty vals = vals.erase "" := by
      unfold removeFirstEmpty
      by_cases h : "" ∈ vals
      · rw [if_pos h]
      · rw [if_neg h, List.erase_of_not_mem h]
    refine ⟨he, ?_⟩
    rw [he]
    have hc := List.count_erase_self "" vals
    constructor
    · intro hm
      have := List.count_pos_iff.mpr hm
      omega
    · intro h2
      apply List.count_pos_iff.mp
      omega
  · intro bum aim seeds infos app secrets_out h
    unfold get_app_id_and_secrets at h
    rcases bum with _ | u
    · simp at h
    · rcases aim with _ | app_id
      · simp at h
      · rcases hr : reorderSecrets (buildSeedMap seeds) with _ | m1
        · simp [hr] at h
        · simp only [hr] at h
          rcases hf : List.foldlM addInfoExtras m1 infos with _ | m2
          · simp [hf] at h
          · simp only [hf] at h
            rcases hd : decodeAllSecrets m2 with err | d
            · simp [hd] at h
            · simp only [hd, Except.ok.injEq, Prod.mk.injEq] at h
              exact ⟨d.map (fun e => e.2), h.2.symm⟩

/-- C8, witness: of two empty decoded secrets only the first is
removed, so the empty string is still a member of the output. -/
theorem c8_one_empty_removed_witness :
    "" ∈ removeFirstEmpty ["", ""] :=
  (c8_one_empty_removed.1 ["", ""]).2.mpr (by decide)

/-- C6: a first response of status 400 whose rendered body contains
Invalid Request Signature makes the tier issue exactly one more
request: the entry is built from the second response, whatever it is,
and exactly two responses are consumed; any first response not
matching that condition is consumed alone with no retry; and when the
retried response is a 200 carrying a url the tier is recorded as
available with that response's fields. -/
theorem c6_signature_retry (q format_id s1 s2 : Int) (r1 r2 : Resp)
    (rest : List (Int × Resp)) :
    (pyContains (pyStrDict r1) "Invalid Request Signature" = true →
      probeTierStep q format_id ((400, r1) :: (s2, r2) :: rest) =
        some (tierResultOf q format_id s2 r2, rest)) ∧
    (¬(s1 = 400 ∧ pyContains (pyStrDict r1) "Invalid Request Signature" = true) →
      probeTierStep q format_id ((s1, r1) :: rest) =
        some (tierResultOf q format_id s1 r1, rest)) ∧
    (s2 = 200 → hasKey r2 "url" = true →
      (tierResultOf q format_id s2 r2).available = true ∧
      tierResultOf q format_id s2 r2 =
        { quality_level := q, format_id := format_id,
          bit_depth := some (dictGet r2 "bit_depth"),
          sampling_rate := some (dictGet r2 "sampling_rate"),
          available := true, error := none }) := by
  refine ⟨?_, ?_, ?_⟩
  · intro hsig
    simp [probeTierStep, takeResp, hsig]
  · intro hno
    simp [probeTierStep, takeResp, hno]
  · intro h200 hurl
    rw [tierResultOf, if_pos ⟨h200, hurl⟩]
    exact ⟨rfl, rfl⟩

/-- C6, witness: a 400 with the signature phrase followed by a 200
with a url consumes both responses and records the tier available. -/
theorem c6_signature_retry_witness :
    probeTierStep 3 7
      [(400, [("message", PyVal.str "Invalid Request Signature")]),
       (200, [("url", PyVal.str "http")]), (999, [])] =
      some (tierResultOf 3 7 200 [("url", PyVal.str "http")], [(999, [])]) ∧
    (tierResultOf 3 7 200 [("url", PyVal.str "http")]).available = true :=
  ⟨(c6_signature_retry 3 7 400 200
      [("message", PyVal.str "Invalid Request Signature")]
      [("url", PyVal.str "http")] [(999, [])]).1 (by decide),
   ((c6_signature_retry 3 7 400 200
      [("message", PyVal.str "Invalid Request Signature")]
      [("url", PyVal.str "http")] [(999, [])]).2.2 rfl (by decide)).1⟩

/-- Both branches of a tier entry carry the probed quality level. -/
theorem tierResultOf_quality_level (q f s : Int) (r : Resp) :
    (tierResultOf q f s r).quality_level = q := by
  rw [tierResultOf]
  split <;> rfl

/-- Every quality level between 1 and 4 has a format id. -/
theorem get_quality_succ_isSome (p : Nat) (hp : p < 4) :
    (get_quality ((p : Int) + 1)).isSome = true := by
  interval_cases p <;> decide

/-- The descending level list grows by the next level at the front. -/
theorem descLevels_succ (n : Nat) :
    descLevels (n + 1) = ((n : Int) + 1) :: descLevels n := by
  unfold descLevels
  have h1 : ((n + 1 : Nat) : Int) - ((0 : Nat) : Int) = (n : Int) + 1 := by
    push_cast
    ring
  have h2 : List.map ((fun i : Nat => ((n + 1 : Nat) : Int) - (i : Int)) ∘
        Nat.succ) (List.range n) =
      List.map (fun i : Nat => (n : Int) - (i : Int)) (List.range n) := by
    apply List.map_congr_left
    intro i _
    show ((n + 1 : Nat) : Int) - ((Nat.succ i : Nat) : Int) =
      (n : Int) - (i : Int)
    push_cast
    ring
  rw [List.range_succ_eq_map, List.map_cons, List.map_map, h1, h2]

/-- The zero equation of the probe loop. -/
theorem inspectLoop_zero (stream : List (Int × Resp)) :
    inspectLoop 0 stream = some ([], stream) := rfl

/-- The successor equation of the probe loop. -/
theorem inspectLoop_succ (p : Nat) (stream : List (Int × Resp)) :
    inspectLoop (p + 1) stream =
      (get_quality ((p : Int) + 1)).bind (fun format_id =>
        stepCont (probeTierStep ((p : Int) + 1) format_id stream)
          (inspectLoop p)) := rfl

/-- With a quality bound of at most 4 and a stream long enough for a
retry at every tier, the probe loop always returns, probing exactly the
levels from its bound down to 1 in that order. -/
theorem inspectLoop_total (q : Nat) (hq : q ≤ 4) :
    ∀ stream : List (Int × Resp), 2 * q ≤ stream.length →
    ∃ res stF, inspectLoop q stream = some (res, stF) ∧
      res.map (fun e => e.quality_level) = descLevels q ∧
      res.length = q := by
  induction q with
  | zero =>
    intro stream _
    exact ⟨[], stream, inspectLoop_zero stream, by simp [descLevels], rfl⟩
  | succ p ih =>
    intro stream hlen
    rcases stream with _ | ⟨a, st1⟩
    · exfalso
      simp only [List.length_nil] at hlen
      omega
    have hfid := get_quality_succ_isSome p (by omega)
    rcases Option.isSome_iff_exists.mp hfid with ⟨fid, hfid⟩
    rw [inspectLoop_succ, hfid, Option.some_bind]
    simp only [List.length_cons] at hlen
    by_cases hretry : (a.1 = 400 ∧
        pyContains (pyStrDict a.2) "Invalid Request Signature" = true)
    · rcases st1 with _ | ⟨b, st2⟩
      · exfalso
        simp only [List.length_nil] at hlen
        omega
      have hstep : probeTierStep ((p : Int) + 1) fid (a :: b :: st2) =
          some (tierResultOf ((p : Int) + 1) fid b.1 b.2, st2) := by
        simp [probeTierStep, takeResp, hretry]
      simp only [List.length_cons] at hlen
      rcases ih (by omega) st2 (by omega) with ⟨res, stF, hloop, hmap, hlenr⟩
      refine ⟨tierResultOf ((p : Int) + 1) fid b.1 b.2 :: res, stF, ?_, ?_, ?_⟩
      · rw [hstep]
        simp [stepCont, hloop]
      · rw [List.map_cons, tierResultOf_quality_level, hmap, descLevels_succ]
      · simp [hlenr]
    · have hstep : probeTierStep ((p : Int) + 1) fid (a :: st1) =
          some (tierResultOf ((p : Int) + 1) fid a.1 a.2, st1) := by
        simp only [probeTierStep, takeResp, Option.some_bind, if_neg hretry,
          Option.map_some']
      rcases ih (by omega) st1 (by omega) with ⟨res, stF, hloop, hmap, hlenr⟩
      refine ⟨tierResultOf ((p : Int) + 1) fid a.1 a.2 :: res, stF, ?_, ?_, ?_⟩
      · rw [hstep]
        simp [stepCont, hloop]
      · rw [List.map_cons, tierResultOf_quality_level, hmap, descLevels_succ]
      · simp [hlenr]

/-- C7: the requested maximum is clamped into 1..4 (and left unchanged
when already in range); with responses available the probe returns
exactly clamped-max entries whose quality levels descend from the
clamped maximum to 1, and no tier failure prevents an entry from being
recorded. -/
theorem c7_probe_descending (track_id : String) (max_quality : Int)
    (stream : List (Int × Resp))
    (h : 2 * (max 1 (min max_quality 4)).toNat ≤ stream.length) :
    ∃ results,
      inspect_track_quality track_id max_quality stream =
        some (track_id, results) ∧
      results.map (fun e => e.quality_level) =
        descLevels (max 1 (min max_quality 4)).toNat ∧
      results.length = (max 1 (min max_quality 4)).toNat ∧
      1 ≤ max 1 (min max_quality 4) ∧ max 1 (min max_quality 4) ≤ 4 ∧
      (1 ≤ max_quality → max_quality ≤ 4 →
        max 1 (min max_quality 4) = max_quality) := by
  have hq4 : (max 1 (min max_quality 4)).toNat ≤ 4 := by omega
  rcases inspectLoop_total _ hq4 stream h with ⟨res, stF, hloop, hmap, hlen⟩
  refine ⟨res, ?_, hmap, hlen, by omega, by omega, by omega⟩
  rw [inspect_track_quality, hloop, Option.map_some']

/-- C7, witness: probing track t with maximum 3 over six available
responses yields exactly the levels 3, 2, 1 in that order. -/
theorem c7_probe_descending_witness :
    (inspect_track_quality "t" 3
      [(200, [("url", PyVal.str "u")]), (200, [("url", PyVal.str "u")]),
       (404, []), (404, []), (500, []), (500, [])]).map
      (fun r => r.2.map (fun e => e.quality_level)) = some [3, 2, 1] := by
  obtain ⟨res, heq, hmap, _⟩ := c7_probe_descending "t" 3
    [(200, [("url", PyVal.str "u")]), (200, [("url", PyVal.str "u")]),
     (404, []), (404, []), (500, []), (500, [])] (by decide)
  rw [heq, Option.map_some', hmap]
  decide

/-- C1: with three distinct timezones discovered in bundle order, the
collected map is reordered by moving the entry at index 1 (the second
discovered) to the front, and the returned secret list follows that
order: the second timezone's secret first, then the first, then the
third. -/
theorem c1_second_timezone_first (a b c u app_id sa sb sc va vb vc : String)
    (hab : a ≠ b) (hac : a ≠ c) (hbc : b ≠ c)
    (hda : decodeSecretEntry [sa] = .ok va)
    (hdb : decodeSecretEntry [sb] = .ok vb)
    (hdc : decodeSecretEntry [sc] = .ok vc)
    (hna : va ≠ "") (hnb : vb ≠ "") (hnc : vc ≠ "") :
    reorderSecrets [(a, [sa]), (b, [sb]), (c, [sc])] =
      some [(b, [sb]), (a, [sa]), (c, [sc])] ∧
    get_app_id_and_secrets (some u) (some app_id)
      [(a, sa), (b, sb), (c, sc)] [] = .ok (app_id, [vb, va, vc]) := by
  have eab : (a == b) = false := by simp [hab]
  have eac : (a == c) = false := by simp [hac]
  have ebc : (b == c) = false := by simp [hbc]
  have ecb : (c == b) = false := by simp [Ne.symm hbc]
  have hmap : buildSeedMap [(a, sa), (b, sb), (c, sc)] =
      [(a, [sa]), (b, [sb]), (c, [sc])] := by
    simp [buildSeedMap, dictInsert, eab, eac, ebc]
  have hre : reorderSecrets [(a, [sa]), (b, [sb]), (c, [sc])] =
      some [(b, [sb]), (a, [sa]), (c, [sc])] := by
    simp [reorderSecrets, move_to_front, eab, ecb]
  refine ⟨hre, ?_⟩
  have hdec : decodeAllSecrets [(b, [sb]), (a, [sa]), (c, [sc])] =
      .ok [(b, vb), (a, va), (c, vc)] := by
    rw [decodeAllSecrets_cons, decodeAllSecrets_cons, decodeAllSecrets_cons,
      decodeAllSecrets_nil]
    simp [hda, hdb, hdc]
  have hrm : removeFirstEmpty [vb, va, vc] = [vb, va, vc] := by
    rw [removeFirstEmpty, if_neg]
    simp [Ne.symm hna, Ne.symm hnb, Ne.symm hnc]
  rw [get_app_id_and_secrets]
  simp only [hmap, hre, List.foldlM_nil, hdec, hrm, List.map_cons,
    List.map_nil]

/-- C1, witness: three concrete timezones with decodable 48-character
seeds come back in order second, first, third. -/
theorem c1_second_timezone_first_witness :
    reorderSecrets
      [("paris", ["QUJDAAAAAAAAAAAAAAAAAAAAAAAAAAAAAAAAAAAAAAAAAAAA"]),
       ("berlin", ["QUJDAAAAAAAAAAAAAAAAAAAAAAAAAAAAAAAAAAAAAAAAAAAA"]),
       ("london", ["QUJDAAAAAAAAAAAAAAAAAAAAAAAAAAAAAAAAAAAAAAAAAAAA"])] =
      some
        [("berlin", ["QUJDAAAAAAAAAAAAAAAAAAAAAAAAAAAAAAAAAAAAAAAAAAAA"]),
         ("paris", ["QUJDAAAAAAAAAAAAAAAAAAAAAAAAAAAAAAAAAAAAAAAAAAAA"]),
         ("london", ["QUJDAAAAAAAAAAAAAAAAAAAAAAAAAAAAAAAAAAAAAAAAAAAA"])] ∧
    get_app_id_and_secrets (some "/resources/7.1.2-b011/bundle.js")
      (some "123456789")
      [("paris", "QUJDAAAAAAAAAAAAAAAAAAAAAAAAAAAAAAAAAAAAAAAAAAAA"),
       ("berlin", "QUJDAAAAAAAAAAAAAAAAAAAAAAAAAAAAAAAAAAAAAAAAAAAA"),
       ("london", "QUJDAAAAAAAAAAAAAAAAAAAAAAAAAAAAAAAAAAAAAAAAAAAA")] [] =
      .ok ("123456789", ["ABC", "ABC", "ABC"]) :=
  c1_second_timezone_first "paris" "berlin" "london"
    "/resources/7.1.2-b011/bundle.js" "123456789"
    "QUJDAAAAAAAAAAAAAAAAAAAAAAAAAAAAAAAAAAAAAAAAAAAA"
    "QUJDAAAAAAAAAAAAAAAAAAAAAAAAAAAAAAAAAAAAAAAAAAAA"
    "QUJDAAAAAAAAAAAAAAAAAAAAAAAAAAAAAAAAAAAAAAAAAAAA"
    "ABC" "ABC" "ABC" (by decide) (by decide) (by decide)
    (by rfl) (by rfl) (by rfl) (by decide) (by decide) (by decide)

/-- Inserting under a key equal to every existing key keeps all keys
equal to it and makes the map exactly one entry long when it was at
most one entry long. -/
theorem dictInsert_all_same (t : String) (v : List String)
    (m : List (String × List String)) (hm : ∀ e ∈ m, e.1 = t) :
    (∀ e ∈ dictInsert m t v, e.1 = t) ∧
    (dictInsert m t v).length = max 1 m.length := by
  cases m with
  | nil => simp [dictInsert]
  | cons e rest =>
    have het : e.1 = t := hm e (List.mem_cons_self e rest)
    have hany : ((e :: rest).any fun x => x.1 == t) = true := by
      simp [List.any_cons, het]
    constructor
    · intro x hx
      rw [dictInsert, if_pos hany] at hx
      rcases List.mem_map.mp hx with ⟨y, hy, rfl⟩
      have hyt := hm y hy
      by_cases hb : (y.1 == t) = true <;> simp [hb, hyt]
    · rw [dictInsert, if_pos hany]
      simp [List.length_map]

/-- Collecting seeds that all share one timezone yields a map of at
most one entry. -/
theorem buildSeedMap_all_same (t : String) (l : List (String × String))
    (hl : ∀ p ∈ l, p.1 = t) :
    ∀ m : List (String × List String), (∀ e ∈ m, e.1 = t) →
    m.length ≤ 1 →
    (l.foldl (fun m p => dictInsert m p.1 [p.2]) m).length ≤ 1 := by
  induction l with
  | nil =>
    intro m _ hlen
    simpa using hlen
  | cons p rest ih =>
    intro m hm hlen
    rw [List.foldl_cons]
    have hpt : p.1 = t := hl p (List.mem_cons_self p rest)
    have hstep := dictInsert_all_same t [p.2] m hm
    rw [hpt]
    exact ih (fun q hq => hl q (List.mem_cons_of_mem p hq)) _
      hstep.1 (le_trans (le_of_eq hstep.2) (max_le (le_refl 1) hlen))

/-- A map of at most one entry has no index 1, so the reorder fails. -/
theorem reorderSecrets_short (m : List (String × List String))
    (hm : m.length ≤ 1) : reorderSecrets m = none := by
  rw [reorderSecrets, List.get?_eq_none.mpr hm]

/-- The found equation of move_to_front: a present key moves its entry
to the front of the remaining entries. -/
theorem move_to_front_found {α : Type} (m : List (String × α)) (k : String)
    (e : String × α) (hf : m.find? (fun x => x.1 == k) = some e) :
    move_to_front m k = some (e :: m.filter (fun x => !(x.1 == k))) := by
  unfold move_to_front
  simp only [hf]

/-- The keys of an insert are the old keys, extended by the new key
when it was absent. -/
theorem keys_dictInsert (m : List (String × List String)) (k : String)
    (v : List String) :
    (dictInsert m k v).map Prod.fst = m.map Prod.fst ∨
    (dictInsert m k v).map Prod.fst = m.map Prod.fst ++ [k] := by
  rw [dictInsert]
  by_cases h : (m.any fun e => e.1 == k) = true
  · left
    rw [if_pos h, List.map_map]
    apply List.map_congr_left
    intro e _
    show (if e.1 == k then (e.1, v) else e).1 = e.1
    split <;> rfl
  · right
    rw [if_neg h]
    simp

/-- The new key is a key of the insert. -/
theorem mem_keys_dictInsert_self (m : List (String × List String))
    (k : String) (v : List String) :
    k ∈ (dictInsert m k v).map Prod.fst := by
  rw [dictInsert]
  by_cases ha : (m.any fun e => e.1 == k) = true
  · rw [if_pos ha]
    rcases List.any_eq_true.mp ha with ⟨e, he, hek⟩
    have hek2 : e.1 = k := by simpa using hek
    apply List.mem_map.mpr
    refine ⟨(e.1, v), ?_, hek2⟩
    apply List.mem_map.mpr
    exact ⟨e, he, by simp [hek]⟩
  · rw [if_neg ha]
    simp

/-- Old keys remain keys of the insert. -/
theorem mem_keys_dictInsert_mono (m : List (String × List String))
    (k k2 : String) (v : List String) (hk : k2 ∈ m.map Prod.fst) :
    k2 ∈ (dictInsert m k v).map Prod.fst := by
  rcases keys_dictInsert m k v with h | h <;> rw [h]
  · exact hk
  · exact List.mem_append_left _ hk

/-- Every timezone of the seed matches ends up a key of the collected
map, as does every key of the starting accumulator. -/
theorem mem_keys_buildSeedMap (l : List (String × String)) :
    ∀ (m : List (String × List String)) (k : String),
    (k ∈ m.map Prod.fst ∨ ∃ s, (k, s) ∈ l) →
    k ∈ (l.foldl (fun m p => dictInsert m p.1 [p.2]) m).map Prod.fst := by
  induction l with
  | nil =>
    intro m k h
    rcases h with h | ⟨s, hs⟩
    · simpa using h
    · cases hs
  | cons p rest ih =>
    intro m k h
    rw [List.foldl_cons]
    rcases h with h | ⟨s, hs⟩
    · exact ih _ k (Or.inl (mem_keys_dictInsert_mono m p.1 k [p.2] h))
    · rcases List.mem_cons.mp hs with heq | hmem
      · have hk : p.1 = k := by rw [← heq]
        refine ih _ k (Or.inl ?_)
        rw [← hk]
        exact mem_keys_dictInsert_self m p.1 [p.2]
      · exact ih _ k (Or.inr ⟨s, hmem⟩)

/-- A list holding two different elements has length at least two. -/
theorem two_mem_length {α : Type} (l : List α) (x y : α) (hx : x ∈ l)
    (hy : y ∈ l) (hne : x ≠ y) : 2 ≤ l.length := by
  match l with
  | [] => cases hx
  | [z] =>
    simp at hx hy
    exact absurd (hx.trans hy.symm) hne
  | z :: w :: rest => simp [List.length_cons]

/-- C10: discovery needs at least two distinct seed timezones: when
every seed match carries one same timezone, keypairs has no index 1 and
get_app_id_and_secrets fails with the IndexError instead of returning a
pair; and whenever two seed matches carry different timezones the
reorder succeeds, so that failure branch is unreachable. -/
theorem c10_two_timezones_required :
    (∀ (u app_id t : String) (seeds : List (String × String))
       (infos : List (String × String × String)),
       (∀ p ∈ seeds, p.1 = t) →
       get_app_id_and_secrets (some u) (some app_id) seeds infos =
         .error .indexError) ∧
    (∀ (seeds : List (String × String)) (p q : String × String),
       p ∈ seeds → q ∈ seeds → p.1 ≠ q.1 →
       (reorderSecrets (buildSeedMap seeds)).isSome = true) := by
  constructor
  · intro u app_id t seeds infos hall
    have hshort : (buildSeedMap seeds).length ≤ 1 :=
      buildSeedMap_all_same t seeds hall [] (by simp) (by simp)
    have hnone := reorderSecrets_short _ hshort
    rw [get_app_id_and_secrets]
    simp only [hnone]
  · intro seeds p q hp hq hne
    have hkp : p.1 ∈ (buildSeedMap seeds).map Prod.fst :=
      mem_keys_buildSeedMap seeds [] p.1
        (Or.inr ⟨p.2, by rw [Prod.mk.eta]; exact hp⟩)
    have hkq : q.1 ∈ (buildSeedMap seeds).map Prod.fst :=
      mem_keys_buildSeedMap seeds [] q.1
        (Or.inr ⟨q.2, by rw [Prod.mk.eta]; exact hq⟩)
    have hlen2 : 2 ≤ (buildSeedMap seeds).length := by
      have := two_mem_length _ _ _ hkp hkq hne
      simpa using this
    rw [reorderSecrets]
    rcases hget : (buildSeedMap seeds).get? 1 with _ | kv
    · exfalso
      have := List.get?_eq_none.mp hget
      omega
    · rcases hf : (buildSeedMap seeds).find? (fun e => e.1 == kv.1)
        with _ | e
      · exfalso
        have hmem := List.get?_mem hget
        have := List.find?_eq_none.mp hf kv hmem
        simp at this
      · show (move_to_front (buildSeedMap seeds) kv.1).isSome = true
        rw [move_to_front_found _ _ _ hf]
        rfl

/-- C10, witness: two seed matches sharing the timezone paris fail with
the IndexError, while matches for paris and berlin reorder fine. -/
theorem c10_two_timezones_required_witness :
    get_app_id_and_secrets (some "/resources/7.1.2-b011/bundle.js")
      (some "123456789") [("paris", "s1"), ("paris", "s2")] [] =
      .error .indexError ∧
    (reorderSecrets (buildSeedMap [("paris", "s1"), ("berlin", "s2")])).isSome
      = true :=
  ⟨c10_two_timezones_required.1 "/resources/7.1.2-b011/bundle.js"
      "123456789" "paris" [("paris", "s1"), ("paris", "s2")] [] (by decide),
   c10_two_timezones_required.2 [("paris", "s1"), ("berlin", "s2")]
      ("paris", "s1") ("berlin", "s2") (by decide) (by decide) (by decide)⟩

end Qobuz
